import Mathlib

/-!
Shallow embedding of the platformer game loop in `src/index.tsx`.

Coordinates and velocities are real-valued in the source (JS numbers); they
are modelled as rationals, which is exact for every constant of the program
(the only non-integer constant is `GRAVITY = 0.5`).

The canvas dimensions (`canvas.width`, `canvas.height`) are fixed at startup
from the window size; they are threaded through as parameters `cw`, `ch`.
-/

namespace Game

/-- The `keys` record: three held-key flags (src/index.tsx lines 64-68). -/
structure Keys where
  left : Bool
  right : Bool
  up : Bool
deriving DecidableEq

/-- The `Player` interface: rectangle, velocity, jump flag (lines 33-37). -/
structure Player where
  x : ℚ
  y : ℚ
  width : ℚ
  height : ℚ
  vx : ℚ
  vy : ℚ
  isJumping : Bool
deriving DecidableEq

/-- The `Platform` interface: a plain rectangle (line 39). -/
structure Platform where
  x : ℚ
  y : ℚ
  width : ℚ
  height : ℚ
deriving DecidableEq

/-- The `Enemy` interface: rectangle plus patrol data (lines 41-45). -/
structure Enemy where
  x : ℚ
  y : ℚ
  width : ℚ
  height : ℚ
  vx : ℚ
  startX : ℚ
  moveRange : ℚ
deriving DecidableEq

/-- The `camera` record (lines 59-62). -/
structure Camera where
  x : ℚ
  y : ℚ
deriving DecidableEq

/-- The mutable game state touched by `update`: player, enemy list, camera. -/
structure GameState where
  player : Player
  enemies : List Enemy
  camera : Camera
deriving DecidableEq

/-- `GRAVITY = 0.5` (line 20). -/
def GRAVITY : ℚ := 1/2

/-- `PLAYER_SPEED = 4` (line 21). -/
def PLAYER_SPEED : ℚ := 4

/-- `JUMP_FORCE = -12` (line 22). -/
def JUMP_FORCE : ℚ := -12

/-- `WORLD_WIDTH = 3000` (line 23). -/
def WORLD_WIDTH : ℚ := 3000

/-- `createPlatforms` (lines 72-94); `ch` is `canvas.height`. -/
def createPlatforms (ch : ℚ) : List Platform :=
  [ ⟨0, ch - 40, 800, 40⟩,
    ⟨900, ch - 40, WORLD_WIDTH - 900, 40⟩,
    ⟨200, ch - 150, 150, 20⟩,
    ⟨500, ch - 250, 150, 20⟩,
    ⟨800, ch - 350, 150, 20⟩,
    ⟨400, ch - 450, 150, 20⟩,
    ⟨1100, ch - 150, 200, 20⟩,
    ⟨1400, ch - 250, 200, 20⟩,
    ⟨1350, ch - 400, 150, 20⟩,
    ⟨1700, ch - 350, 300, 20⟩,
    ⟨2100, ch - 200, 100, 20⟩,
    ⟨2250, ch - 350, 100, 20⟩,
    ⟨2400, ch - 500, 100, 20⟩,
    ⟨2600, ch - 100, 300, 20⟩ ]

/-- `createEnemies` (lines 96-102); `ch` is `canvas.height`. -/
def createEnemies (ch : ℚ) : List Enemy :=
  [ ⟨500, ch - 290, 40, 40, 1, 500, 70⟩,
    ⟨1750, ch - 390, 40, 40, -1, 1700, 220⟩,
    ⟨2650, ch - 140, 40, 40, 2, 2600, 220⟩ ]

/-- The initial `player` value (lines 47-55). -/
def initPlayer (ch : ℚ) : Player :=
  ⟨100, ch - 200, 40, 60, 0, 0, true⟩

/-- The game state right after `init()` (camera starts at the origin). -/
def initState (ch : ℚ) : GameState :=
  ⟨initPlayer ch, createEnemies ch, ⟨0, 0⟩⟩

/-- `resetPlayer` (lines 141-146): back to spawn; `vx` is untouched. -/
def resetPlayer (ch : ℚ) (p : Player) : Player :=
  { p with x := 100, y := ch - 100, vy := 0, isJumping := true }

/-- Input handling at the top of `update` (lines 150-161): horizontal
velocity from held keys (left wins over right), then the jump impulse when
`up` is held and the player is not already airborne. -/
def applyInput (k : Keys) (p : Player) : Player :=
  let p1 : Player :=
    if k.left then { p with vx := -PLAYER_SPEED }
    else if k.right then { p with vx := PLAYER_SPEED }
    else { p with vx := 0 }
  if k.up && !p1.isJumping then { p1 with vy := JUMP_FORCE, isJumping := true }
  else p1

/-- Position integration (lines 163-165): `x += vx; y += vy; vy += GRAVITY`.
The `y` move uses the velocity from before this frame's gravity. -/
def integrate (p : Player) : Player :=
  { p with x := p.x + p.vx, y := p.y + p.vy, vy := p.vy + GRAVITY }

/-- The platform-catch condition of the collision loop (lines 171-177). -/
def catches (p : Player) (pl : Platform) : Prop :=
  0 ≤ p.vy ∧ p.x + p.width > pl.x ∧ p.x < pl.x + pl.width ∧
    p.y + p.height > pl.y ∧ p.y + p.height - p.vy ≤ pl.y

instance (p : Player) (pl : Platform) : Decidable (catches p pl) := by
  unfold catches; infer_instance

/-- The platform collision loop (lines 169-184): first platform whose catch
condition holds snaps the player onto its top and grounds them (`break`);
if none does, the player ends the frame airborne (`isJumping = !onGround`). -/
def platformCollide : List Platform → Player → Player
  | [], p => { p with isJumping := true }
  | pl :: rest, p =>
    if catches p pl then { p with y := pl.y - p.height, vy := 0, isJumping := false }
    else platformCollide rest p

/-- Enemy movement (lines 189-194): advance by `vx`, then reverse direction
when the new position is strictly below `startX` or the leading edge is
strictly beyond `startX + moveRange`. -/
def moveEnemy (e : Enemy) : Enemy :=
  let e1 : Enemy := { e with x := e.x + e.vx }
  if e1.x < e1.startX ∨ e1.x + e1.width > e1.startX + e1.moveRange then
    { e1 with vx := -e1.vx }
  else e1

/-- The player-enemy AABB overlap test (lines 197-202). -/
def overlaps (p : Player) (e : Enemy) : Prop :=
  p.x < e.x + e.width ∧ p.x + p.width > e.x ∧
    p.y < e.y + e.height ∧ p.y + p.height > e.y

instance (p : Player) (e : Enemy) : Decidable (overlaps p e) := by
  unfold overlaps; infer_instance

/-- The stomp condition (line 204): falling, and the bottom edge before this
frame's vertical move was at/above the enemy's top. -/
def stomps (p : Player) (e : Enemy) : Prop :=
  0 < p.vy ∧ p.y + p.height - p.vy ≤ e.y

instance (p : Player) (e : Enemy) : Decidable (stomps p e) := by
  unfold stomps; infer_instance

/-- Player-enemy collision resolution for one (already moved) enemy
(lines 196-210): stomp removes the enemy and bounces the player at half the
jump force; any other overlap resets the player; no overlap changes nothing.
The second component is the enemy as it remains in the collection. -/
def enemyCollide (ch : ℚ) (p : Player) (e : Enemy) : Player × Option Enemy :=
  if overlaps p e then
    if stomps p e then ({ p with vy := JUMP_FORCE / 2 }, none)
    else (resetPlayer ch p, some e)
  else (p, some e)

/-- One slot of the enemy loop body (lines 187-210): move the enemy, maybe
reverse it, then resolve collision against the current player. -/
def enemyStep (ch : ℚ) (p : Player) (e : Enemy) : Player × Option Enemy :=
  enemyCollide ch p (moveEnemy e)

/-- The enemy loop (lines 187-211). The source iterates indices from high to
low (removal via `splice i` never disturbs the indices still to be visited),
so the recursion resolves the tail - the higher indices - first and the head
last, threading the possibly-updated player through. -/
def enemyLoop (ch : ℚ) (p : Player) : List Enemy → Player × List Enemy
  | [] => (p, [])
  | e :: rest =>
    let pr := enemyLoop ch p rest
    let pe := enemyStep ch pr.1 e
    match pe.2 with
    | none => (pe.1, pr.2)
    | some e1 => (pe.1, e1 :: pr.2)

/-- Left world boundary (lines 214-216): clamp `x` up to 0. -/
def clampLeft (p : Player) : Player :=
  if p.x < 0 then { p with x := 0 } else p

/-- Fall-out check (lines 220-222): reset when `y` exceeds the canvas
height. -/
def fallCheck (ch : ℚ) (p : Player) : Player :=
  if p.y > ch then resetPlayer ch p else p

/-- Camera update (lines 226-232): centre on the player, then push the
offset up to 0 and down to `WORLD_WIDTH - cw`, in that order. The vertical
offset is never written. -/
def cameraUpdate (cw : ℚ) (p : Player) (c : Camera) : Camera :=
  let c1 : ℚ := p.x - cw / 2 + p.width / 2
  let c2 : ℚ := if c1 < 0 then 0 else c1
  let c3 : ℚ := if c2 + cw > WORLD_WIDTH then WORLD_WIDTH - cw else c2
  ⟨c3, c.y⟩

/-- The player/enemy part of one `update()` tick (lines 148-222), in source
order: input, integration, platform collision, enemy loop, left boundary,
fall-out reset. -/
def stepPE (ch : ℚ) (k : Keys) (p : Player) (es : List Enemy) :
    Player × List Enemy :=
  let p3 := platformCollide (createPlatforms ch) (integrate (applyInput k p))
  let pe := enemyLoop ch p3 es
  (fallCheck ch (clampLeft pe.1), pe.2)

/-- One full `update()` tick (lines 148-233): simulation then camera. -/
def update (cw ch : ℚ) (k : Keys) (s : GameState) : GameState :=
  let pe := stepPE ch k s.player s.enemies
  ⟨pe.1, pe.2, cameraUpdate cw pe.1 s.camera⟩

/-- No key held. -/
def noKeys : Keys := ⟨false, false, false⟩

/-- States reachable from the initial game state under arbitrary per-tick
input snapshots, for fixed canvas dimensions. -/
inductive Reachable (cw ch : ℚ) : GameState → Prop
  | init : Reachable cw ch (initState ch)
  | step {s : GameState} (k : Keys) :
      Reachable cw ch s → Reachable cw ch (update cw ch k s)

/-- The state trace of a run: one state per input snapshot, each tick fed
the state produced by the previous one (the loop of lines 267-271 with the
per-frame key snapshots made explicit). -/
def runTrace (cw ch : ℚ) : List Keys → GameState → List GameState
  | [], _ => []
  | k :: ks, s =>
    let s1 := update cw ch k s
    s1 :: runTrace cw ch ks s1

/-- The first enemy of the level with the canvas height fixed at 600:
`startX = 500`, `moveRange = 70`, `vx = 1`, starting at `x = 500`. -/
def enemyOne : Enemy := ⟨500, 310, 40, 40, 1, 500, 70⟩

/-- Inductive patrol invariant for an enemy: nonzero speed, nonnegative
width, one patrol step plus the body fits in the range, and the enemy is
either inside its patrol strip, or overshooting a bound by at most one step
while already heading back in. -/
def EnemyInv (e : Enemy) : Prop :=
  0 < |e.vx| ∧ 0 ≤ e.width ∧ |e.vx| + e.width ≤ e.moveRange ∧
    ((e.startX ≤ e.x ∧ e.x + e.width ≤ e.startX + e.moveRange) ∨
      (e.startX - |e.vx| ≤ e.x ∧ e.x < e.startX ∧ 0 < e.vx) ∨
      (e.startX + e.moveRange - e.width < e.x ∧
        e.x ≤ e.startX + e.moveRange - e.width + |e.vx| ∧ e.vx < 0))

/-- One no-input tick at the reference 800x600 canvas. -/
def tick : GameState → GameState := update 800 600 noKeys

/-- A player standing flush on the first ground platform of the 600-high
level: bottom edge `500 + 60 = 560` equals the ground top, `vy = 0`,
grounded; the level enemies are in their initial placement. -/
def restState : GameState :=
  ⟨⟨100, 500, 40, 60, 0, 0, false⟩, createEnemies 600, ⟨0, 0⟩⟩

/-- The enemy collection after `n` ticks of undisturbed patrol. -/
def esIter : ℕ → List Enemy
  | 0 => createEnemies 600
  | n + 1 => (esIter n).map moveEnemy

/-- All enemies vertically clear of the band `[500, 560)` swept by a player
of height 60 whose `y` stays at 500. -/
def bandClear (es : List Enemy) : Prop :=
  ∀ e ∈ es, e.y + e.height ≤ 500 ∨ 560 ≤ e.y

end Game

namespace Game

/-! ## Helper lemmas (shared) -/

theorem platformCollide_cons_pos {p : Player} {pl : Platform} (ps : List Platform)
    (h : catches p pl) :
    platformCollide (pl :: ps) p =
      { p with y := pl.y - p.height, vy := 0, isJumping := false } := by
  simp [platformCollide, h]

theorem platformCollide_cons_neg {p : Player} {pl : Platform} (ps : List Platform)
    (h : ¬ catches p pl) :
    platformCollide (pl :: ps) p = platformCollide ps p := by
  simp [platformCollide, h]

theorem moveEnemy_y (e : Enemy) : (moveEnemy e).y = e.y := by
  simp only [moveEnemy]; split_ifs <;> rfl

theorem moveEnemy_height (e : Enemy) : (moveEnemy e).height = e.height := by
  simp only [moveEnemy]; split_ifs <;> rfl

theorem enemyCollide_not_overlap {ch : ℚ} {p : Player} {e : Enemy}
    (h : ¬ overlaps p e) : enemyCollide ch p e = (p, some e) := by
  simp [enemyCollide, h]

theorem enemyStep_snd (ch : ℚ) (p : Player) (e : Enemy) :
    (enemyStep ch p e).2 = none ∨ (enemyStep ch p e).2 = some (moveEnemy e) := by
  unfold enemyStep enemyCollide
  split_ifs <;> simp

/-- When the player misses every (already moved) enemy, the enemy pass
leaves the player alone and just advances every enemy. -/
theorem enemyLoop_clear (ch : ℚ) (p : Player) (es : List Enemy)
    (h : ∀ e ∈ es, ¬ overlaps p (moveEnemy e)) :
    enemyLoop ch p es = (p, es.map moveEnemy) := by
  induction es with
  | nil => rfl
  | cons e rest ih =>
    have hr := ih (fun x hx => h x (List.mem_cons_of_mem _ hx))
    simp only [enemyLoop, hr, enemyStep,
      enemyCollide_not_overlap (h e (List.mem_cons_self _ _)), List.map_cons]

/-- Every enemy surviving the enemy pass is the moved version of an enemy
that entered it. -/
theorem enemyLoop_mem (ch : ℚ) (p : Player) (es : List Enemy) :
    ∀ e1 ∈ (enemyLoop ch p es).2, ∃ e ∈ es, e1 = moveEnemy e := by
  induction es with
  | nil => intro e1 h1; simp [enemyLoop] at h1
  | cons e rest ih =>
    intro e1 h1
    rcases enemyStep_snd ch (enemyLoop ch p rest).1 e with hs | hs <;>
      simp only [enemyLoop, hs] at h1
    · obtain ⟨e2, he2, rfl⟩ := ih e1 h1
      exact ⟨e2, List.mem_cons_of_mem _ he2, rfl⟩
    · rcases List.mem_cons.mp h1 with rfl | hmem
      · exact ⟨e, List.mem_cons_self _ _, rfl⟩
      · obtain ⟨e2, he2, rfl⟩ := ih e1 hmem
        exact ⟨e2, List.mem_cons_of_mem _ he2, rfl⟩

/-! ## C2: stomp vs hit -/

/-- C2: when the player overlaps an enemy (tested after the enemy's move),
a falling player whose pre-move bottom edge was at/above the enemy's top
stomps: the enemy is removed from the collection and `vy` becomes
`JUMP_FORCE / 2`; any other overlap is a hit: the player is reset to spawn
(`x = 100`) and the enemy persists. -/
theorem stomp_removes_hit_resets (ch : ℚ) (p : Player) (e : Enemy)
    (hov : overlaps p (moveEnemy e)) :
    (stomps p (moveEnemy e) →
      enemyLoop ch p [e] = ({ p with vy := JUMP_FORCE / 2 }, [])) ∧
    (¬ stomps p (moveEnemy e) →
      enemyLoop ch p [e] = (resetPlayer ch p, [moveEnemy e]) ∧
        (resetPlayer ch p).x = 100) := by
  constructor
  · intro hst
    simp [enemyLoop, enemyStep, enemyCollide, hov, hst]
  · intro hst
    exact ⟨by simp [enemyLoop, enemyStep, enemyCollide, hov, hst], rfl⟩

/-- Witness for C2: a concrete stomp removes the enemy and halves the jump
force into the bounce. -/
theorem stomp_removes_hit_resets_witness :
    overlaps ⟨100, 300, 40, 60, 0, 5, true⟩
        (moveEnemy ⟨89, 358, 40, 40, 1, 0, 500⟩) ∧
      stomps ⟨100, 300, 40, 60, 0, 5, true⟩
        (moveEnemy ⟨89, 358, 40, 40, 1, 0, 500⟩) ∧
      enemyLoop 600 ⟨100, 300, 40, 60, 0, 5, true⟩ [⟨89, 358, 40, 40, 1, 0, 500⟩] =
        ({ (⟨100, 300, 40, 60, 0, 5, true⟩ : Player) with vy := JUMP_FORCE / 2 },
          []) := by
  have hov : overlaps ⟨100, 300, 40, 60, 0, 5, true⟩
      (moveEnemy ⟨89, 358, 40, 40, 1, 0, 500⟩) := by
    norm_num [overlaps, moveEnemy]
  have hst : stomps ⟨100, 300, 40, 60, 0, 5, true⟩
      (moveEnemy ⟨89, 358, 40, 40, 1, 0, 500⟩) := by
    norm_num [stomps, moveEnemy]
  exact ⟨hov, hst, (stomp_removes_hit_resets 600 _ _ hov).1 hst⟩

/-! ## C8: fall-out reset and hit reset -/

/-- C8: if, after the enemy pass and the left-boundary clamp, the player's
`y` exceeds the canvas height, the tick ends with the reset routine applied:
`x = 100`, `y = ch - 100`, `vy = 0`, airborne; and a non-stomp enemy hit
runs the identical routine `resetPlayer`. -/
theorem fall_reset_and_hit_reset (cw ch : ℚ) (k : Keys) (s : GameState)
    (hfall :
      (clampLeft (enemyLoop ch (platformCollide (createPlatforms ch)
        (integrate (applyInput k s.player))) s.enemies).1).y > ch) :
    (update cw ch k s).player =
        resetPlayer ch (clampLeft (enemyLoop ch (platformCollide (createPlatforms ch)
          (integrate (applyInput k s.player))) s.enemies).1) ∧
      (update cw ch k s).player.x = 100 ∧
      (update cw ch k s).player.y = ch - 100 ∧
      (update cw ch k s).player.vy = 0 ∧
      (update cw ch k s).player.isJumping = true ∧
      ∀ (q : Player) (e : Enemy), overlaps q e → ¬ stomps q e →
        (enemyCollide ch q e).1 = resetPlayer ch q := by
  have hup : (update cw ch k s).player =
      resetPlayer ch (clampLeft (enemyLoop ch (platformCollide (createPlatforms ch)
        (integrate (applyInput k s.player))) s.enemies).1) := by
    simp only [update, stepPE, fallCheck]
    rw [if_pos hfall]
  refine ⟨hup, by rw [hup]; rfl, by rw [hup]; rfl, by rw [hup]; rfl,
    by rw [hup]; rfl, ?_⟩
  intro q e ho hs2
  simp [enemyCollide, ho, hs2]

/-- Witness for C8: a player over the ground gap, falling fast, ends the
tick reset to spawn. -/
theorem fall_reset_witness :
    (clampLeft (enemyLoop 600 (platformCollide (createPlatforms 600)
        (integrate (applyInput noKeys
          (⟨⟨850, 590, 40, 60, 0, 20, true⟩, [], ⟨0, 0⟩⟩ : GameState).player)))
        (⟨⟨850, 590, 40, 60, 0, 20, true⟩, [], ⟨0, 0⟩⟩ : GameState).enemies).1).y >
        600 ∧
      (update 800 600 noKeys
        (⟨⟨850, 590, 40, 60, 0, 20, true⟩, [], ⟨0, 0⟩⟩ : GameState)).player.x = 100 ∧
      (update 800 600 noKeys
        (⟨⟨850, 590, 40, 60, 0, 20, true⟩, [], ⟨0, 0⟩⟩ : GameState)).player.vy = 0 ∧
      (update 800 600 noKeys
        (⟨⟨850, 590, 40, 60, 0, 20, true⟩, [], ⟨0, 0⟩⟩ : GameState)).player.isJumping =
        true := by
  have hf : (clampLeft (enemyLoop 600 (platformCollide (createPlatforms 600)
      (integrate (applyInput noKeys
        (⟨⟨850, 590, 40, 60, 0, 20, true⟩, [], ⟨0, 0⟩⟩ : GameState).player)))
      (⟨⟨850, 590, 40, 60, 0, 20, true⟩, [], ⟨0, 0⟩⟩ : GameState).enemies).1).y >
      600 := by
    norm_num [clampLeft, enemyLoop, platformCollide, createPlatforms, catches,
      integrate, applyInput, noKeys, WORLD_WIDTH, GRAVITY, PLAYER_SPEED]
  have h := fall_reset_and_hit_reset 800 600 noKeys
    (⟨⟨850, 590, 40, 60, 0, 20, true⟩, [], ⟨0, 0⟩⟩ : GameState) hf
  exact ⟨hf, h.2.1, h.2.2.2.1, h.2.2.2.2.1⟩

/-! ## C3: enemy reversal boundary -/

/-- Until the patrol bound, the first enemy just advances: for the first 30
ticks its `x` is `500 + n` and it still moves right. -/
theorem enemyOne_ramp : ∀ n : ℕ, n ≤ 30 →
    moveEnemy^[n] enemyOne = ⟨500 + n, 310, 40, 40, 1, 500, 70⟩ := by
  intro n
  induction n with
  | zero => intro _; simp [enemyOne]
  | succ m ih =>
    intro hm
    have hm29 : (m : ℚ) ≤ 29 := by exact_mod_cast Nat.lt_succ_iff.mp (by omega)
    have h0m : (0 : ℚ) ≤ (m : ℚ) := by positivity
    rw [Function.iterate_succ_apply', ih (by omega)]
    have h1 : ¬((500 : ℚ) + (m : ℚ) + 1 < 500) := by linarith
    have h2 : ¬((500 : ℚ) + (m : ℚ) + 1 + 40 > 500 + 70) := by linarith
    simp only [moveEnemy, h1, h2, or_self, if_false, Enemy.mk.injEq, and_true,
      true_and]
    push_cast
    ring

/-- The tick at which the first enemy's leading edge reaches
`startX + moveRange` exactly: `x + width = 570`, yet `vx` is still `1` -
the code only reverses on a strict overshoot, so the claim's "at or beyond"
boundary (and the spec scenario's `x+width >= 570`) is off by one tick. -/
theorem enemy_at_bound_no_reversal :
    (moveEnemy^[30] enemyOne).x + (moveEnemy^[30] enemyOne).width ≥ 570 ∧
      (moveEnemy^[30] enemyOne).vx = 1 := by
  rw [enemyOne_ramp 30 le_rfl]
  norm_num

/-- Amended C3: an enemy reverses exactly when, after its position update,
its position is strictly below `startX` or its leading edge is strictly
beyond `startX + moveRange`; the scenario enemy still moves right when
`x + width = 570` and reverses one tick later, at `x = 531`. -/
theorem enemy_reversal_strict :
    (∀ e : Enemy, e.vx ≠ 0 →
      ((moveEnemy e).vx = -e.vx ↔
        (e.x + e.vx < e.startX ∨
          e.x + e.vx + e.width > e.startX + e.moveRange))) ∧
    (moveEnemy^[30] enemyOne).vx = 1 ∧
    (moveEnemy^[31] enemyOne).x = 531 ∧
    (moveEnemy^[31] enemyOne).vx = -1 := by
  refine ⟨?_, ?_, ?_, ?_⟩
  · intro e hv
    simp only [moveEnemy]
    by_cases h : (e.x + e.vx < e.startX ∨ e.x + e.vx + e.width > e.startX + e.moveRange)
    · rw [if_pos h]
      simp [h]
    · rw [if_neg h]
      simp only [eq_iff_iff, iff_false, h]
      intro heq
      exact hv (by linarith)
  · rw [enemyOne_ramp 30 le_rfl]
  · rw [Function.iterate_succ_apply', enemyOne_ramp 30 le_rfl]
    norm_num [moveEnemy]
  · rw [Function.iterate_succ_apply', enemyOne_ramp 30 le_rfl]
    norm_num [moveEnemy]

/-- Witness for the amended C3 at the concrete level enemy. -/
theorem enemy_reversal_strict_witness :
    ((moveEnemy enemyOne).vx = -enemyOne.vx ↔
      (enemyOne.x + enemyOne.vx < enemyOne.startX ∨
        enemyOne.x + enemyOne.vx + enemyOne.width >
          enemyOne.startX + enemyOne.moveRange)) :=
  enemy_reversal_strict.1 enemyOne (by norm_num [enemyOne])

/-! ## C4: jump intent -/

/-- C4: if `up` is held while the player is grounded, the input phase sets
`vy` to exactly `JUMP_FORCE` and marks the player airborne; when the player
is already airborne the jump input leaves `vy` untouched. -/
theorem jump_intent_grounded_only (k : Keys) (p : Player) :
    (k.up = true → p.isJumping = false →
      (applyInput k p).vy = JUMP_FORCE ∧ (applyInput k p).isJumping = true) ∧
    (p.isJumping = true → (applyInput k p).vy = p.vy) := by
  obtain ⟨l, r, u⟩ := k
  cases l <;> cases r <;> cases u <;>
    refine ⟨fun hu hj => ?_, fun hj => ?_⟩ <;>
    simp_all [applyInput]

/-- Witness for C4: a grounded player, `up` held, gets `vy = JUMP_FORCE`. -/
theorem jump_intent_witness :
    (applyInput ⟨false, false, true⟩ ⟨100, 500, 40, 60, 0, 0, false⟩).vy =
        JUMP_FORCE ∧
      (applyInput ⟨false, false, true⟩ ⟨100, 500, 40, 60, 0, 0, false⟩).isJumping =
        true :=
  (jump_intent_grounded_only ⟨false, false, true⟩
    ⟨100, 500, 40, 60, 0, 0, false⟩).1 rfl rfl

/-! ## C5: camera clamp -/

/-- Whenever the viewport is no wider than the world, the two sequential
camera clamps compute exactly the centred offset clamped into
`[0, WORLD_WIDTH - cw]`. -/
theorem cameraUpdate_clamped (cw : ℚ) (p : Player) (c : Camera)
    (h : cw ≤ WORLD_WIDTH) :
    (cameraUpdate cw p c).x =
        max 0 (min (p.x - cw / 2 + p.width / 2) (WORLD_WIDTH - cw)) ∧
      0 ≤ (cameraUpdate cw p c).x ∧
      (cameraUpdate cw p c).x ≤ WORLD_WIDTH - cw := by
  unfold cameraUpdate
  refine ⟨?_, ?_, ?_⟩ <;>
    · simp only [max_def, min_def]
      split_ifs <;> first | rfl | linarith

/-- C5: at the end of every tick, when the viewport is no wider than the
world, the stored camera offset equals the end-of-tick player's centred
offset clamped to `[0, WORLD_WIDTH - cw]`, and so always lies in that
interval. -/
theorem camera_clamped (cw ch : ℚ) (k : Keys) (s : GameState)
    (h : cw ≤ WORLD_WIDTH) :
    (update cw ch k s).camera.x =
        max 0 (min ((update cw ch k s).player.x - cw / 2 +
          (update cw ch k s).player.width / 2) (WORLD_WIDTH - cw)) ∧
      0 ≤ (update cw ch k s).camera.x ∧
      (update cw ch k s).camera.x ≤ WORLD_WIDTH - cw := by
  have hc : (update cw ch k s).camera =
      cameraUpdate cw ((update cw ch k s).player) s.camera := rfl
  rw [hc]
  exact cameraUpdate_clamped cw ((update cw ch k s).player) s.camera h

/-- Witness for C5 after one tick from the initial state. -/
theorem camera_clamped_witness :
    (update 800 600 noKeys (initState 600)).camera.x =
        max 0 (min ((update 800 600 noKeys (initState 600)).player.x -
          800 / 2 + (update 800 600 noKeys (initState 600)).player.width / 2)
          (WORLD_WIDTH - 800)) ∧
      0 ≤ (update 800 600 noKeys (initState 600)).camera.x ∧
      (update 800 600 noKeys (initState 600)).camera.x ≤ WORLD_WIDTH - 800 :=
  camera_clamped 800 600 noKeys (initState 600) (by norm_num [WORLD_WIDTH])

/-! ## C6: left boundary -/

/-- C6: after any tick, from any state at all (reachable or not) and any
input, the player's `x` is nonnegative: the left-boundary clamp runs before
the fall-out reset, and the reset itself respawns at `x = 100`. -/
theorem player_x_nonneg (cw ch : ℚ) (k : Keys) (s : GameState) :
    0 ≤ (update cw ch k s).player.x := by
  simp only [update, stepPE]
  unfold fallCheck clampLeft resetPlayer
  split_ifs with h1 h2 h3 <;> first | linarith | norm_num

/-! ## C9: determinism -/

/-- C9: the simulation is deterministic - equal input snapshot sequences
applied to equal states yield identical state traces. -/
theorem update_deterministic (cw ch : ℚ) (ks1 ks2 : List Keys)
    (s1 s2 : GameState) (hk : ks1 = ks2) (hs : s1 = s2) :
    runTrace cw ch ks1 s1 = runTrace cw ch ks2 s2 := by
  subst hk; subst hs; rfl

/-- Witness for C9 on a one-tick run from the initial state. -/
theorem update_deterministic_witness :
    runTrace 800 600 [noKeys] (initState 600) =
      runTrace 800 600 [noKeys] (initState 600) :=
  update_deterministic 800 600 [noKeys] [noKeys] (initState 600) (initState 600)
    rfl rfl

/-! ## C7: enemy patrol bound -/

/-- The patrol invariant is preserved by one enemy move/reversal step. -/
theorem moveEnemy_inv {e : Enemy} (h : EnemyInv e) : EnemyInv (moveEnemy e) := by
  obtain ⟨hv, hw, hr, hcase⟩ := h
  have hne : e.vx ≠ 0 := by
    intro h0
    rw [h0, abs_zero] at hv
    exact lt_irrefl 0 hv
  simp only [moveEnemy]
  rcases hne.lt_or_lt with hneg | hpos
  · have habs : |e.vx| = -e.vx := abs_of_neg hneg
    rw [habs] at hv hr hcase
    by_cases hrev : e.x + e.vx < e.startX ∨
        e.x + e.vx + e.width > e.startX + e.moveRange
    · rw [if_pos hrev]
      simp only [EnemyInv, abs_neg, habs]
      refine ⟨hv, hw, hr, ?_⟩
      rcases hcase with hin | hleft | hright
      · rcases hrev with hlt | hgt
        · exact Or.inr (Or.inl ⟨by linarith [hin.1], hlt, by linarith⟩)
        · exact absurd hgt (by push_neg; linarith [hin.2])
      · exact absurd hleft.2.2 (by linarith)
      · rcases hrev with hlt | hgt
        · exact absurd hlt (by push_neg; linarith [hright.1, hr])
        · exact absurd hgt (by push_neg; linarith [hright.2.1])
    · rw [if_neg hrev]
      push_neg at hrev
      simp only [EnemyInv, habs]
      exact ⟨hv, hw, hr, Or.inl ⟨hrev.1, hrev.2⟩⟩
  · have habs : |e.vx| = e.vx := abs_of_pos hpos
    rw [habs] at hv hr hcase
    by_cases hrev : e.x + e.vx < e.startX ∨
        e.x + e.vx + e.width > e.startX + e.moveRange
    · rw [if_pos hrev]
      simp only [EnemyInv, abs_neg, habs]
      refine ⟨hv, hw, hr, ?_⟩
      rcases hcase with hin | hleft | hright
      · rcases hrev with hlt | hgt
        · exact absurd hlt (by push_neg; linarith [hin.1])
        · exact Or.inr (Or.inr ⟨by linarith [hgt], by linarith [hin.2], by linarith⟩)
      · rcases hrev with hlt | hgt
        · exact absurd hlt (by push_neg; linarith [hleft.1])
        · exact absurd hgt (by push_neg; linarith [hleft.2.1, hr])
      · exact absurd hright.2.2 (by linarith)
    · rw [if_neg hrev]
      push_neg at hrev
      simp only [EnemyInv, habs]
      exact ⟨hv, hw, hr, Or.inl ⟨hrev.1, hrev.2⟩⟩

/-- The three level enemies start inside their patrol strips. -/
theorem initial_enemies_inv (ch : ℚ) : ∀ e ∈ createEnemies ch, EnemyInv e := by
  intro e he
  simp only [createEnemies, List.mem_cons, List.not_mem_nil, or_false] at he
  rcases he with rfl | rfl | rfl
  · simp only [EnemyInv]
    rw [show |(1 : ℚ)| = 1 from abs_one]
    norm_num
  · simp only [EnemyInv]
    rw [show |(-1 : ℚ)| = 1 from by rw [abs_neg, abs_one]]
    norm_num
  · simp only [EnemyInv]
    rw [show |(2 : ℚ)| = 2 from abs_of_pos (by norm_num)]
    norm_num

theorem update_enemies_mem (cw ch : ℚ) (k : Keys) (s : GameState) :
    ∀ e1 ∈ (update cw ch k s).enemies, ∃ e ∈ s.enemies, e1 = moveEnemy e := by
  intro e1 h1
  exact enemyLoop_mem ch _ s.enemies e1 h1

theorem reachable_enemies_inv {cw ch : ℚ} {s : GameState}
    (h : Reachable cw ch s) : ∀ e ∈ s.enemies, EnemyInv e := by
  induction h with
  | init => exact initial_enemies_inv ch
  | step k _ ih =>
    intro e1 h1
    obtain ⟨e, he, rfl⟩ := update_enemies_mem _ _ _ _ e1 h1
    exact moveEnemy_inv (ih e he)

/-- C7: in every reachable state, every enemy's position lies within
`[startX - |vx|, startX + moveRange + |vx|]`: at most one frame of
overshoot past the patrol bounds. -/
theorem enemy_patrol_bound (cw ch : ℚ) (s : GameState)
    (h : Reachable cw ch s) :
    ∀ e ∈ s.enemies,
      e.startX - |e.vx| ≤ e.x ∧ e.x ≤ e.startX + e.moveRange + |e.vx| := by
  intro e he
  obtain ⟨hv, hw, hr, hcase⟩ := reachable_enemies_inv h e he
  have h0 : 0 ≤ |e.vx| := abs_nonneg _
  rcases hcase with hin | hleft | hright
  · exact ⟨by linarith [hin.1], by linarith [hin.2]⟩
  · exact ⟨hleft.1, by linarith [hleft.2.1]⟩
  · exact ⟨by linarith [hright.1], by linarith [hright.2.1]⟩

/-- Witness for C7 at the initial state's first enemy. -/
theorem enemy_patrol_bound_witness :
    enemyOne.startX - |enemyOne.vx| ≤ enemyOne.x ∧
      enemyOne.x ≤ enemyOne.startX + enemyOne.moveRange + |enemyOne.vx| := by
  have hmem : enemyOne ∈ (initState 600).enemies := by
    norm_num [initState, createEnemies, enemyOne, Enemy.mk.injEq, List.mem_cons]
  exact enemy_patrol_bound 800 600 (initState 600) Reachable.init enemyOne hmem

/-! ## C1 and C10: resting flush on a platform -/

theorem bandClear_map {es : List Enemy} (h : bandClear es) :
    bandClear (es.map moveEnemy) := by
  intro e1 h1
  obtain ⟨e, he, rfl⟩ := List.mem_map.mp h1
  rw [moveEnemy_y, moveEnemy_height]
  exact h e he

theorem bandClear_init : bandClear (createEnemies 600) := by
  intro e he
  simp only [createEnemies, List.mem_cons, List.not_mem_nil, or_false] at he
  rcases he with rfl | rfl | rfl <;> norm_num

theorem bandClear_not_overlap {es : List Enemy} (hc : bandClear es)
    {p : Player} (hy : p.y = 500) (hh : p.height = 60) :
    ∀ e ∈ es, ¬ overlaps p (moveEnemy e) := by
  intro e he hov
  obtain ⟨_, _, h3, h4⟩ := hov
  rw [moveEnemy_y, moveEnemy_height, hy] at h3
  rw [moveEnemy_y, hy, hh] at h4
  rcases hc e he with hlo | hhi
  · linarith
  · linarith

/-- One no-input tick from a grounded flush stance on the ground platform:
the strict-penetration catch test (`y + height > platform.y`) fails at
flush contact, so the player ends the tick airborne with `vy = GRAVITY`,
position unchanged; enemies just patrol. -/
theorem tick_rest (x vx0 : ℚ) (es : List Enemy) (h0 : 0 ≤ x) (_h8 : x < 800)
    (hc : bandClear es) :
    stepPE 600 noKeys ⟨x, 500, 40, 60, vx0, 0, false⟩ es =
      (⟨x, 500, 40, 60, 0, 1/2, true⟩, es.map moveEnemy) := by
  have h1 : integrate (applyInput noKeys ⟨x, 500, 40, 60, vx0, 0, false⟩) =
      ⟨x, 500, 40, 60, 0, 1/2, false⟩ := by
    norm_num [applyInput, integrate, noKeys, GRAVITY]
  have h2 : platformCollide (createPlatforms 600)
      ⟨x, 500, 40, 60, 0, 1/2, false⟩ = ⟨x, 500, 40, 60, 0, 1/2, true⟩ := by
    norm_num [platformCollide, createPlatforms, catches, WORLD_WIDTH]
  have h3 : enemyLoop 600 ⟨x, 500, 40, 60, 0, 1/2, true⟩ es =
      (⟨x, 500, 40, 60, 0, 1/2, true⟩, es.map moveEnemy) :=
    enemyLoop_clear _ _ _ (bandClear_not_overlap hc rfl rfl)
  simp only [stepPE, h1, h2, h3]
  norm_num [clampLeft, fallCheck, not_lt.2 h0]

/-- The following tick re-grounds the player at the same position: the
half-unit of penetration makes the ground platform's catch succeed, and the
snap restores `y` exactly. -/
theorem tick_air (x : ℚ) (es : List Enemy) (h0 : 0 ≤ x) (h8 : x < 800)
    (hc : bandClear es) :
    stepPE 600 noKeys ⟨x, 500, 40, 60, 0, 1/2, true⟩ es =
      (⟨x, 500, 40, 60, 0, 0, false⟩, es.map moveEnemy) := by
  have h1 : integrate (applyInput noKeys ⟨x, 500, 40, 60, 0, 1/2, true⟩) =
      ⟨x, 1001/2, 40, 60, 0, 1, true⟩ := by
    norm_num [applyInput, integrate, noKeys, GRAVITY]
  have hcatch : catches ⟨x, 1001/2, 40, 60, 0, 1, true⟩
      ⟨0, (600 : ℚ) - 40, 800, 40⟩ := by
    unfold catches
    refine ⟨by norm_num, by linarith, by linarith, by norm_num, by norm_num⟩
  have h2 : platformCollide (createPlatforms 600)
      ⟨x, 1001/2, 40, 60, 0, 1, true⟩ = ⟨x, 500, 40, 60, 0, 0, false⟩ := by
    simp only [createPlatforms]
    rw [platformCollide_cons_pos _ hcatch]
    norm_num
  have h3 : enemyLoop 600 ⟨x, 500, 40, 60, 0, 0, false⟩ es =
      (⟨x, 500, 40, 60, 0, 0, false⟩, es.map moveEnemy) :=
    enemyLoop_clear _ _ _ (bandClear_not_overlap hc rfl rfl)
  simp only [stepPE, h1, h2, h3]
  norm_num [clampLeft, fallCheck, not_lt.2 h0]

/-- At the spawn column the camera clamps to the world's left edge. -/
theorem cameraUpdate_spawn {p : Player} (hx : p.x = 100) (hw : p.width = 40)
    (c : Camera) : cameraUpdate 800 p c = ⟨0, c.y⟩ := by
  unfold cameraUpdate
  rw [hx, hw]
  norm_num [WORLD_WIDTH]

theorem esIter_clear (n : ℕ) : bandClear (esIter n) := by
  induction n with
  | zero => exact bandClear_init
  | succ m ih => exact bandClear_map ih

/-- Complete trace of the no-input run from `restState`: position and
camera never change, while `vy`/`isJumping` alternate with the parity of
the tick count and the enemies patrol on. -/
theorem restTrace (n : ℕ) :
    tick^[n] restState =
      ⟨if n % 2 = 1 then ⟨100, 500, 40, 60, 0, 1/2, true⟩
        else ⟨100, 500, 40, 60, 0, 0, false⟩, esIter n, ⟨0, 0⟩⟩ := by
  induction n with
  | zero => simp [restState, esIter]
  | succ m ih =>
    rw [Function.iterate_succ_apply', ih]
    have hclear : bandClear (esIter m) := esIter_clear m
    rcases Nat.even_or_odd m with hev | hod
    · have hm : m % 2 = 0 := Nat.even_iff.mp hev
      rw [if_neg (by omega), if_pos (by omega)]
      have hstep := tick_rest 100 0 (esIter m) (by norm_num) (by norm_num) hclear
      simp only [tick, update, hstep]
      rw [cameraUpdate_spawn rfl rfl]
      rfl
    · have hm : m % 2 = 1 := Nat.odd_iff.mp hod
      rw [if_pos hm, if_neg (by omega)]
      have hstep := tick_air 100 (esIter m) (by norm_num) (by norm_num) hclear
      simp only [tick, update, hstep]
      rw [cameraUpdate_spawn rfl rfl]
      rfl

/-- C1 as stated fails: from a flush rest on the ground platform with no
input, already the first tick ends with `vy = GRAVITY` (not 0) and
`isJumping = true` (not false), because the catch test needs strict
penetration of the platform top. -/
theorem rest_first_tick_not_still :
    (tick restState).player.vy = GRAVITY ∧
      (tick restState).player.vy ≠ 0 ∧
      (tick restState).player.isJumping = true := by
  have h := restTrace 1
  rw [Function.iterate_one] at h
  rw [h]
  norm_num [GRAVITY]

/-- Amended C1: over the next 10 no-input ticks from flush rest the
position stays fixed, but `vy` and `isJumping` alternate - `GRAVITY` and
airborne after odd ticks, `0` and grounded after even ticks. -/
theorem rest_ten_ticks (k : ℕ) (_hk : k ≤ 10) :
    (tick^[k] restState).player.x = 100 ∧
      (tick^[k] restState).player.y = 500 ∧
      ((tick^[k] restState).player.vy = if k % 2 = 1 then GRAVITY else 0) ∧
      (tick^[k] restState).player.isJumping = decide (k % 2 = 1) := by
  rw [restTrace k]
  by_cases h : k % 2 = 1 <;> simp [h, GRAVITY]

/-- Witness for the amended C1 at tick 2. -/
theorem rest_ten_ticks_witness :
    (tick^[2] restState).player.x = 100 ∧
      (tick^[2] restState).player.y = 500 ∧
      ((tick^[2] restState).player.vy = if 2 % 2 = 1 then GRAVITY else 0) ∧
      (tick^[2] restState).player.isJumping = decide (2 % 2 = 1) :=
  rest_ten_ticks 2 (by norm_num)

/-- C10: a no-input tick from a flush grounded stance anywhere on the first
ground platform leaves the position unchanged but ends airborne with
`vy = GRAVITY`; the next tick re-grounds at the same position with `vy = 0`,
so at steady rest `isJumping` alternates between false and true. -/
theorem flush_rest_alternation (x vx0 : ℚ) (cam : Camera)
    (h0 : 0 ≤ x) (h8 : x < 800) :
    (update 800 600 noKeys
        ⟨⟨x, 500, 40, 60, vx0, 0, false⟩, createEnemies 600, cam⟩).player =
      ⟨x, 500, 40, 60, 0, GRAVITY, true⟩ ∧
    (update 800 600 noKeys (update 800 600 noKeys
        ⟨⟨x, 500, 40, 60, vx0, 0, false⟩, createEnemies 600, cam⟩)).player =
      ⟨x, 500, 40, 60, 0, 0, false⟩ := by
  have hc : bandClear (createEnemies 600) := bandClear_init
  have h1 := tick_rest x vx0 (createEnemies 600) h0 h8 hc
  have h2 := tick_air x ((createEnemies 600).map moveEnemy) h0 h8
    (bandClear_map hc)
  constructor
  · simp only [update, h1]
    norm_num [GRAVITY]
  · simp only [update, h1, h2]

/-- Witness for C10 at the spawn column `x = 100`. -/
theorem flush_rest_alternation_witness :
    (0 : ℚ) ≤ 100 ∧
      (update 800 600 noKeys
          ⟨⟨100, 500, 40, 60, 0, 0, false⟩, createEnemies 600, ⟨0, 0⟩⟩).player =
        ⟨100, 500, 40, 60, 0, GRAVITY, true⟩ :=
  ⟨by norm_num,
    (flush_rest_alternation 100 0 ⟨0, 0⟩ (by norm_num) (by norm_num)).1⟩

end Game
